import Mathlib

/-!
Verification of a PDF text-block pipeline (`main.py`): a Sequencer
(`extract_text_blocks`, which sorts blocks top-to-bottom then left-to-right
with a stable sort) and a Segmenter (`group_blocks`, a single stateful pass
that partitions blocks into four keyword-driven groups).

Coordinates are modelled as integers: the source manipulates page
coordinates only through order comparisons, never arithmetic, so any
linearly ordered numeric type is a faithful model of the well-formed inputs.
-/

/-- `TextBlock(x0, y0, x1, y1, text, block_no)` from `main.py`. -/
structure TextBlock where
  x0 : Int
  y0 : Int
  x1 : Int
  y1 : Int
  text : String
  block_no : Nat
deriving DecidableEq

/-- Python substring test `pat in hay` on character lists: `true` iff `pat`
occurs contiguously in `hay` (the empty pattern always occurs). -/
def hasSubstr (pat : List Char) : List Char → Bool
  | [] => pat.isEmpty
  | c :: rest => pat.isPrefixOf (c :: rest) || hasSubstr pat rest

/-- `pat in txt` where `txt` is an already-normalized character list. -/
def containsSub (txt : List Char) (pat : String) : Bool :=
  hasSubstr pat.toList txt

/-- `blk.text.strip().lower()` from `group_blocks`: trim surrounding
whitespace, then lower-case, viewed as a character list. -/
def normText (blk : TextBlock) : List Char :=
  (((blk.text.toList.dropWhile Char.isWhitespace).reverse.dropWhile
      Char.isWhitespace).reverse).map Char.toLower

/-- `"restricted" in txt_clean` (rule 1 of `group_blocks`). -/
def isMarker (blk : TextBlock) : Bool :=
  containsSub (normText blk) "restricted"

/-- `"programme/project status report" in txt_clean` (rule 2). -/
def isHeadA (blk : TextBlock) : Bool :=
  containsSub (normText blk) "programme/project status report"

/-- `"description" in txt_clean` (rule 3). -/
def isHeadB (blk : TextBlock) : Bool :=
  containsSub (normText blk) "description"

/-- `"report parameters" in txt_clean` (rule 4). -/
def isHeadC (blk : TextBlock) : Bool :=
  containsSub (normText blk) "report parameters"

/-- A block matching none of the four keyword rules (a follower or orphan). -/
def noKeyword (blk : TextBlock) : Bool :=
  !(isMarker blk || isHeadA blk || isHeadB blk || isHeadC blk)

/-- The sort key order of `blocks.sort(key=lambda blk: (blk.y0, blk.x0))`:
lexicographic on the pair `(y0, x0)`. -/
def blkLE (a b : TextBlock) : Prop :=
  a.y0 < b.y0 ∨ (a.y0 = b.y0 ∧ a.x0 ≤ b.x0)

instance : DecidableRel blkLE := fun a b => by
  unfold blkLE; infer_instance

instance : IsTotal TextBlock blkLE :=
  ⟨fun a b => by unfold blkLE; omega⟩

instance : IsTrans TextBlock blkLE :=
  ⟨fun a b c hab hbc => by unfold blkLE at *; omega⟩

/-- The Sequencer: `blocks.sort(key=lambda blk: (blk.y0, blk.x0))` — Python's
list sort is a stable sort ascending on the key, modelled by a stable
insertion sort under `blkLE`. -/
def sortBlocks (blocks : List TextBlock) : List TextBlock :=
  List.insertionSort blkLE blocks

/-- The local state of the `group_blocks` loop: the four group accumulators
and the three activity flags. `dropped` is not a variable of the source; it
counts the blocks that reach the final `pass` branch (the spec's dropped
fragments) and influences nothing else. -/
structure GState where
  group1 : List TextBlock
  group2 : List TextBlock
  group3 : List TextBlock
  group4 : List TextBlock
  in_group2 : Bool
  in_group3 : Bool
  in_group4 : Bool
  dropped : Nat
deriving DecidableEq

/-- The state at entry of the `group_blocks` loop. -/
def initState : GState :=
  ⟨[], [], [], [], false, false, false, 0⟩

/-- One iteration of the `for blk in blocks` loop of `group_blocks`; each
branch of the source ends in `continue`, so the chain of `if` statements is
an if/else cascade. -/
def stepBlock (s : GState) (blk : TextBlock) : GState :=
  if isMarker blk then
    { s with group1 := s.group1 ++ [blk] }
  else if isHeadA blk then
    { s with in_group2 := true, in_group3 := false, in_group4 := false,
             group2 := s.group2 ++ [blk] }
  else if isHeadB blk then
    { s with in_group2 := false, in_group3 := true, in_group4 := false,
             group3 := s.group3 ++ [blk] }
  else if isHeadC blk then
    { s with in_group2 := false, in_group3 := false, in_group4 := true,
             group4 := s.group4 ++ [blk] }
  else if s.in_group2 then { s with group2 := s.group2 ++ [blk] }
  else if s.in_group3 then { s with group3 := s.group3 ++ [blk] }
  else if s.in_group4 then { s with group4 := s.group4 ++ [blk] }
  else { s with dropped := s.dropped + 1 }

/-- Running the `group_blocks` loop from state `s` over `blocks`. -/
def runBlocks (s : GState) (blocks : List TextBlock) : GState :=
  blocks.foldl stepBlock s

/-- `group_blocks(blocks)`: returns `[group1, group2, group3, group4]`. -/
def group_blocks (blocks : List TextBlock) : List (List TextBlock) :=
  let s := runBlocks initState blocks
  [s.group1, s.group2, s.group3, s.group4]

/-- A block of the spec's concrete scenario: left edge 0, the given top. -/
def mkBlk (top : Int) (txt : String) (idx : Nat) : TextBlock :=
  ⟨0, top, 100, top + 5, txt, idx⟩

def blkR : TextBlock := mkBlk 0 "RESTRICTED" 0
def blkA0 : TextBlock := mkBlk 10 "Programme/Project Status Report" 1
def blkA1 : TextBlock := mkBlk 20 "line A" 2
def blkB0 : TextBlock := mkBlk 30 "Description" 3
def blkB1 : TextBlock := mkBlk 40 "line B" 4
def blkC0 : TextBlock := mkBlk 50 "Report Parameters" 5
def blkC1 : TextBlock := mkBlk 60 "line C" 6

/-- The spec's seven-fragment scenario, in reading order. -/
def scenarioInput : List TextBlock :=
  [blkR, blkA0, blkA1, blkB0, blkB1, blkC0, blkC1]

/-- The grouping the spec expects for the scenario. -/
def scenarioExpected : List (List TextBlock) :=
  [[blkR], [blkA0, blkA1], [blkB0, blkB1], [blkC0, blkC1]]

/-! ### Helper lemmas about one iteration of the `group_blocks` loop -/

theorem runBlocks_nil (s : GState) : runBlocks s [] = s := rfl

theorem runBlocks_cons (s : GState) (blk : TextBlock) (l : List TextBlock) :
    runBlocks s (blk :: l) = runBlocks (stepBlock s blk) l := rfl

theorem noKeyword_eq (blk : TextBlock) (h : noKeyword blk = true) :
    isMarker blk = false ∧ isHeadA blk = false ∧ isHeadB blk = false ∧
      isHeadC blk = false := by
  simp only [noKeyword, Bool.not_eq_true', Bool.or_eq_false_iff] at h
  exact ⟨h.1.1.1, h.1.1.2, h.1.2, h.2⟩

theorem step_marker (s : GState) (blk : TextBlock) (h : isMarker blk = true) :
    stepBlock s blk = { s with group1 := s.group1 ++ [blk] } := by
  simp [stepBlock, h]

theorem step_headA (s : GState) (blk : TextBlock) (h1 : isMarker blk = false)
    (h2 : isHeadA blk = true) :
    stepBlock s blk = { s with in_group2 := true, in_group3 := false,
                               in_group4 := false,
                               group2 := s.group2 ++ [blk] } := by
  simp [stepBlock, h1, h2]

theorem step_headB (s : GState) (blk : TextBlock) (h1 : isMarker blk = false)
    (h2 : isHeadA blk = false) (h3 : isHeadB blk = true) :
    stepBlock s blk = { s with in_group2 := false, in_group3 := true,
                               in_group4 := false,
                               group3 := s.group3 ++ [blk] } := by
  simp [stepBlock, h1, h2, h3]

theorem step_headC (s : GState) (blk : TextBlock) (h1 : isMarker blk = false)
    (h2 : isHeadA blk = false) (h3 : isHeadB blk = false)
    (h4 : isHeadC blk = true) :
    stepBlock s blk = { s with in_group2 := false, in_group3 := false,
                               in_group4 := true,
                               group4 := s.group4 ++ [blk] } := by
  simp [stepBlock, h1, h2, h3, h4]

theorem step_follower2 (s : GState) (blk : TextBlock) (h : noKeyword blk = true)
    (h2 : s.in_group2 = true) :
    stepBlock s blk = { s with group2 := s.group2 ++ [blk] } := by
  obtain ⟨hm, ha, hb, hc⟩ := noKeyword_eq blk h
  simp [stepBlock, hm, ha, hb, hc, h2]

theorem step_follower3 (s : GState) (blk : TextBlock) (h : noKeyword blk = true)
    (h2 : s.in_group2 = false) (h3 : s.in_group3 = true) :
    stepBlock s blk = { s with group3 := s.group3 ++ [blk] } := by
  obtain ⟨hm, ha, hb, hc⟩ := noKeyword_eq blk h
  simp [stepBlock, hm, ha, hb, hc, h2, h3]

theorem step_follower4 (s : GState) (blk : TextBlock) (h : noKeyword blk = true)
    (h2 : s.in_group2 = false) (h3 : s.in_group3 = false)
    (h4 : s.in_group4 = true) :
    stepBlock s blk = { s with group4 := s.group4 ++ [blk] } := by
  obtain ⟨hm, ha, hb, hc⟩ := noKeyword_eq blk h
  simp [stepBlock, hm, ha, hb, hc, h2, h3, h4]

/-- Running the loop over keyword-free blocks while Section-A is the active
group appends them all to `group2` and changes nothing else. -/
theorem run_followers2 : ∀ (fs : List TextBlock) (s : GState),
    s.in_group2 = true → (∀ f ∈ fs, noKeyword f = true) →
    runBlocks s fs = { s with group2 := s.group2 ++ fs }
  | [], s, _, _ => by simp [runBlocks]
  | f :: fs, s, h2, hks => by
    have hstep := step_follower2 s f (hks f (by simp)) h2
    have ih := run_followers2 fs { s with group2 := s.group2 ++ [f] }
      h2 (fun g hg => hks g (by simp [hg]))
    simp only [runBlocks, List.foldl_cons] at ih ⊢
    rw [hstep, ih]
    simp

/-- Running the loop over keyword-free blocks while Section-B is the active
group appends them all to `group3` and changes nothing else. -/
theorem run_followers3 : ∀ (fs : List TextBlock) (s : GState),
    s.in_group2 = false → s.in_group3 = true →
    (∀ f ∈ fs, noKeyword f = true) →
    runBlocks s fs = { s with group3 := s.group3 ++ fs }
  | [], s, _, _, _ => by simp [runBlocks]
  | f :: fs, s, h2, h3, hks => by
    have hstep := step_follower3 s f (hks f (by simp)) h2 h3
    have ih := run_followers3 fs { s with group3 := s.group3 ++ [f] }
      h2 h3 (fun g hg => hks g (by simp [hg]))
    simp only [runBlocks, List.foldl_cons] at ih ⊢
    rw [hstep, ih]
    simp

/-- Running the loop over keyword-free blocks while Section-C is the active
group appends them all to `group4` and changes nothing else. -/
theorem run_followers4 : ∀ (fs : List TextBlock) (s : GState),
    s.in_group2 = false → s.in_group3 = false → s.in_group4 = true →
    (∀ f ∈ fs, noKeyword f = true) →
    runBlocks s fs = { s with group4 := s.group4 ++ fs }
  | [], s, _, _, _, _ => by simp [runBlocks]
  | f :: fs, s, h2, h3, h4, hks => by
    have hstep := step_follower4 s f (hks f (by simp)) h2 h3 h4
    have ih := run_followers4 fs { s with group4 := s.group4 ++ [f] }
      h2 h3 h4 (fun g hg => hks g (by simp [hg]))
    simp only [runBlocks, List.foldl_cons] at ih ⊢
    rw [hstep, ih]
    simp

/-! ### Flag exclusivity and partition accounting -/

/-- At most one of the three section-activity flags is set. -/
def atMostOneFlag (s : GState) : Bool :=
  !(s.in_group2 && s.in_group3) && !(s.in_group2 && s.in_group4) &&
    !(s.in_group3 && s.in_group4)

theorem atMostOneFlag_step (s : GState) (blk : TextBlock)
    (h : atMostOneFlag s = true) : atMostOneFlag (stepBlock s blk) = true := by
  unfold stepBlock
  repeat' split <;> simp_all [atMostOneFlag]

theorem atMostOneFlag_run : ∀ (l : List TextBlock) (s : GState),
    atMostOneFlag s = true → atMostOneFlag (runBlocks s l) = true
  | [], _, h => h
  | blk :: l, s, h => by
    simp only [runBlocks, List.foldl_cons]
    exact atMostOneFlag_run l (stepBlock s blk) (atMostOneFlag_step s blk h)

/-- Combined size of the four group accumulators. -/
def totalLen (s : GState) : Nat :=
  s.group1.length + s.group2.length + s.group3.length + s.group4.length

/-- The four group accumulators as one multiset of block occurrences. -/
def allGroups (s : GState) : Multiset TextBlock :=
  (s.group1 : Multiset TextBlock) + (s.group2 : Multiset TextBlock) +
    (s.group3 : Multiset TextBlock) + (s.group4 : Multiset TextBlock)

theorem step_totalLen (s : GState) (blk : TextBlock) :
    totalLen (stepBlock s blk) + (stepBlock s blk).dropped =
      totalLen s + s.dropped + 1 := by
  unfold stepBlock
  repeat' split
  all_goals simp [totalLen]
  all_goals omega

theorem run_totalLen : ∀ (l : List TextBlock) (s : GState),
    totalLen (runBlocks s l) + (runBlocks s l).dropped =
      totalLen s + s.dropped + l.length
  | [], s => by simp [runBlocks]
  | blk :: l, s => by
    have ih := run_totalLen l (stepBlock s blk)
    have hstep := step_totalLen s blk
    rw [runBlocks_cons, List.length_cons]
    omega

theorem step_allGroups (s : GState) (blk : TextBlock) :
    allGroups (stepBlock s blk) ≤ allGroups s + {blk} := by
  unfold stepBlock
  repeat' split
  all_goals
    simp only [allGroups, ← Multiset.coe_singleton, ← Multiset.coe_add]
  all_goals
    first
      | exact self_le_add_right _ _
      | exact le_of_eq (by abel)

theorem run_allGroups : ∀ (l : List TextBlock) (s : GState),
    allGroups (runBlocks s l) ≤ allGroups s + (l : Multiset TextBlock)
  | [], s => by simp [runBlocks_nil]
  | blk :: l, s => by
    rw [runBlocks_cons]
    calc allGroups (runBlocks (stepBlock s blk) l)
        ≤ allGroups (stepBlock s blk) + (l : Multiset TextBlock) :=
          run_allGroups l (stepBlock s blk)
      _ ≤ (allGroups s + {blk}) + (l : Multiset TextBlock) :=
          add_le_add_right (step_allGroups s blk) _
      _ = allGroups s + ((blk :: l : List TextBlock) : Multiset TextBlock) := by
          rw [add_assoc, Multiset.singleton_add, Multiset.cons_coe]

/-! ### The claims -/

/-- C10: throughout the Segmenter's pass, at most one of the three
section-active flags `in_group2`, `in_group3`, `in_group4` is true. The
state after processing any input list is the state after any step of any
longer run, so quantifying over all inputs covers every intermediate step:
the currently active group is always well-defined (one section or none). -/
theorem active_section_exclusive (l : List TextBlock) :
    atMostOneFlag (runBlocks initState l) = true :=
  atMostOneFlag_run l initState rfl

/-- C2: the four groups produced by `group_blocks` are pairwise disjoint at
the level of block occurrences (their concatenation is a sub-multiset of
the input), and the sum of the four group sizes plus the number of dropped
blocks (those reaching the final `pass` branch) equals the input size. -/
theorem partition_invariant (l : List TextBlock) :
    (((runBlocks initState l).group1 ++ (runBlocks initState l).group2 ++
        (runBlocks initState l).group3 ++ (runBlocks initState l).group4 :
        List TextBlock) : Multiset TextBlock) ≤ (l : Multiset TextBlock) ∧
    (runBlocks initState l).group1.length +
      (runBlocks initState l).group2.length +
      (runBlocks initState l).group3.length +
      (runBlocks initState l).group4.length +
      (runBlocks initState l).dropped = l.length := by
  constructor
  · have h := run_allGroups l initState
    have h0 : allGroups initState = 0 := rfl
    rw [h0, zero_add] at h
    simp only [allGroups] at h
    simpa only [Multiset.coe_add] using h
  · have h := run_totalLen l initState
    have h0 : totalLen initState = 0 := rfl
    have h1 : initState.dropped = 0 := rfl
    rw [h0, h1] at h
    simp only [totalLen] at h
    omega

/-- C3: a block whose normalized text contains "restricted" is appended to
Marker (group1) and leaves all the rest of the loop state — including the
three active-group flags — unchanged; and in a sequence [Section-A heading,
marker block, keyword-free follower] the follower lands in Section-A
(group2), not in Marker and not dropped. -/
theorem marker_independence (s : GState) (a m f : TextBlock)
    (hm : isMarker m = true) (ha1 : isMarker a = false)
    (ha2 : isHeadA a = true) (hf : noKeyword f = true) :
    stepBlock s m = { s with group1 := s.group1 ++ [m] } ∧
    group_blocks [a, m, f] = [[m], [a, f], [], []] := by
  refine ⟨step_marker s m hm, ?_⟩
  unfold group_blocks
  rw [runBlocks_cons, step_headA _ a ha1 ha2]
  rw [runBlocks_cons, step_marker _ m hm]
  rw [runBlocks_cons, step_follower2 _ f hf rfl]
  rw [runBlocks_nil]
  simp [initState]

/-- A loop state in which Section-A is active and already holds its
heading, as after processing `[blkA0]`. -/
def wStateA : GState := ⟨[], [blkA0], [], [], true, false, false, 0⟩

/-- Witness for `marker_independence` at concrete blocks. -/
theorem marker_independence_witness :
    (isMarker blkR = true ∧ isMarker blkA0 = false ∧ isHeadA blkA0 = true ∧
      noKeyword blkA1 = true) ∧
    (stepBlock wStateA blkR =
        { wStateA with group1 := wStateA.group1 ++ [blkR] } ∧
      group_blocks [blkA0, blkR, blkA1] = [[blkR], [blkA0, blkA1], [], []]) :=
  ⟨⟨by decide, by decide, by decide, by decide⟩,
    marker_independence wStateA blkA0 blkR blkA1 (by decide) (by decide)
      (by decide) (by decide)⟩

/-- C7: the Segmenter's rules are evaluated in fixed priority order and the
first match wins: marker ("restricted"), then Section-A, then Section-B,
then Section-C. In particular a block containing both "description" and
"report parameters" is appended to Section-B (group3) and makes Section-B
the active group, never Section-C. -/
theorem first_match_priority :
    (∀ (s : GState) (blk : TextBlock), isMarker blk = true →
      stepBlock s blk = { s with group1 := s.group1 ++ [blk] }) ∧
    (∀ (s : GState) (blk : TextBlock), isMarker blk = false →
      isHeadA blk = true →
      stepBlock s blk = { s with in_group2 := true, in_group3 := false,
                                 in_group4 := false,
                                 group2 := s.group2 ++ [blk] }) ∧
    (∀ (s : GState) (blk : TextBlock), isMarker blk = false →
      isHeadA blk = false → isHeadB blk = true →
      stepBlock s blk = { s with in_group2 := false, in_group3 := true,
                                 in_group4 := false,
                                 group3 := s.group3 ++ [blk] }) ∧
    (∀ (s : GState) (blk : TextBlock), isMarker blk = false →
      isHeadA blk = false → isHeadB blk = false → isHeadC blk = true →
      stepBlock s blk = { s with in_group2 := false, in_group3 := false,
                                 in_group4 := true,
                                 group4 := s.group4 ++ [blk] }) :=
  ⟨step_marker, step_headA, step_headB, step_headC⟩

/-- A block whose normalized text contains both the Section-B keyword
"description" and the Section-C keyword "report parameters". -/
def blkBC : TextBlock := mkBlk 70 "Description of Report Parameters" 7

/-- Witness for `first_match_priority`, exercising all four rules; the
Section-B rule is exercised on a block matching both Section-B and
Section-C keywords. -/
theorem first_match_priority_witness :
    (isHeadB blkBC = true ∧ isHeadC blkBC = true ∧ isMarker blkBC = false ∧
      isHeadA blkBC = false) ∧
    stepBlock initState blkR =
      { initState with group1 := initState.group1 ++ [blkR] } ∧
    stepBlock initState blkA0 =
      { initState with in_group2 := true, in_group3 := false,
                       in_group4 := false,
                       group2 := initState.group2 ++ [blkA0] } ∧
    stepBlock initState blkBC =
      { initState with in_group2 := false, in_group3 := true,
                       in_group4 := false,
                       group3 := initState.group3 ++ [blkBC] } ∧
    stepBlock initState blkC0 =
      { initState with in_group2 := false, in_group3 := false,
                       in_group4 := true,
                       group4 := initState.group4 ++ [blkC0] } :=
  ⟨⟨by decide, by decide, by decide, by decide⟩,
    first_match_priority.1 initState blkR (by decide),
    first_match_priority.2.1 initState blkA0 (by decide) (by decide),
    first_match_priority.2.2.1 initState blkBC (by decide) (by decide)
      (by decide),
    first_match_priority.2.2.2 initState blkC0 (by decide) (by decide)
      (by decide) (by decide)⟩

/-- C8: re-entrancy. From any loop state — in particular one in which
another section has already become active — a block matching a section's
heading keyword re-activates that section: the heading block is appended
to the section's group and every following keyword-free block is appended
to that group until the next heading, with all other state unchanged.
Stated for each of the three section headings. -/
theorem heading_reentrancy :
    (∀ (s : GState) (a : TextBlock) (fs : List TextBlock),
      isMarker a = false → isHeadA a = true →
      (∀ f ∈ fs, noKeyword f = true) →
      runBlocks s (a :: fs) =
        { s with in_group2 := true, in_group3 := false, in_group4 := false,
                 group2 := s.group2 ++ a :: fs }) ∧
    (∀ (s : GState) (b : TextBlock) (fs : List TextBlock),
      isMarker b = false → isHeadA b = false → isHeadB b = true →
      (∀ f ∈ fs, noKeyword f = true) →
      runBlocks s (b :: fs) =
        { s with in_group2 := false, in_group3 := true, in_group4 := false,
                 group3 := s.group3 ++ b :: fs }) ∧
    (∀ (s : GState) (c : TextBlock) (fs : List TextBlock),
      isMarker c = false → isHeadA c = false → isHeadB c = false →
      isHeadC c = true →
      (∀ f ∈ fs, noKeyword f = true) →
      runBlocks s (c :: fs) =
        { s with in_group2 := false, in_group3 := false, in_group4 := true,
                 group4 := s.group4 ++ c :: fs }) := by
  refine ⟨fun s a fs ha1 ha2 hfs => ?_, fun s b fs hb1 hb2 hb3 hfs => ?_,
    fun s c fs hc1 hc2 hc3 hc4 hfs => ?_⟩
  · rw [runBlocks_cons, step_headA s a ha1 ha2]
    rw [run_followers2 fs _ rfl hfs]
    simp
  · rw [runBlocks_cons, step_headB s b hb1 hb2 hb3]
    rw [run_followers3 fs _ rfl rfl hfs]
    simp
  · rw [runBlocks_cons, step_headC s c hc1 hc2 hc3 hc4]
    rw [run_followers4 fs _ rfl rfl rfl hfs]
    simp

/-- A loop state in which Section-B is active and groups 1 and 3 already
hold blocks, as after processing `[blkR, blkB0]`. -/
def wStateB : GState := ⟨[blkR], [], [blkB0], [], false, true, false, 0⟩

/-- Witness for `heading_reentrancy`: a Section-A heading re-activates
Section-A out of a state in which Section-B is active, and the follower
lands in Section-A; the Section-B and Section-C rules are exercised out of
a state in which Section-A is active. -/
theorem heading_reentrancy_witness :
    (isMarker blkA0 = false ∧ isHeadA blkA0 = true ∧
      (∀ f ∈ [blkA1], noKeyword f = true)) ∧
    runBlocks wStateB [blkA0, blkA1] =
      { wStateB with in_group2 := true, in_group3 := false,
                     in_group4 := false,
                     group2 := wStateB.group2 ++ blkA0 :: [blkA1] } ∧
    runBlocks wStateA [blkB0, blkB1] =
      { wStateA with in_group2 := false, in_group3 := true,
                     in_group4 := false,
                     group3 := wStateA.group3 ++ blkB0 :: [blkB1] } ∧
    runBlocks wStateA [blkC0, blkC1] =
      { wStateA with in_group2 := false, in_group3 := false,
                     in_group4 := true,
                     group4 := wStateA.group4 ++ blkC0 :: [blkC1] } :=
  ⟨⟨by decide, by decide, by decide⟩,
    heading_reentrancy.1 wStateB blkA0 [blkA1] (by decide) (by decide)
      (by decide),
    heading_reentrancy.2.1 wStateA blkB0 [blkB1] (by decide) (by decide)
      (by decide) (by decide),
    heading_reentrancy.2.2 wStateA blkC0 [blkC1] (by decide) (by decide)
      (by decide) (by decide) (by decide)⟩

/-! ### Sequencer claims -/

/-- C6: the Sequencer's output is a permutation of its input — every input
block occurrence appears exactly once in the output, nothing is created or
dropped, and blocks are immutable values so no field changes. -/
theorem sequencer_is_permutation (l : List TextBlock) :
    (sortBlocks l).Perm l :=
  List.perm_insertionSort blkLE l

/-- C4: for any input list and any two blocks `A`, `B` with
`A.y0 < B.y0`, every occurrence of `A` in the Sequencer's output comes
before every occurrence of `B`, regardless of their input order. -/
theorem ordering_correctness (l : List TextBlock) (A B : TextBlock)
    (hAB : A.y0 < B.y0) (i j : Nat)
    (hi : i < (sortBlocks l).length) (hj : j < (sortBlocks l).length)
    (hA : (sortBlocks l).get ⟨i, hi⟩ = A)
    (hB : (sortBlocks l).get ⟨j, hj⟩ = B) :
    i < j := by
  have hs : List.Sorted blkLE (sortBlocks l) :=
    List.sorted_insertionSort blkLE l
  rcases Nat.lt_trichotomy i j with h | h | h
  · exact h
  · exfalso
    subst h
    have hAB' : A = B := by rw [← hA, ← hB]
    rw [hAB'] at hAB
    exact lt_irrefl _ hAB
  · exfalso
    have hrel := hs.rel_get_of_lt (a := ⟨j, hj⟩) (b := ⟨i, hi⟩)
      (Fin.mk_lt_mk.mpr h)
    rw [hA, hB] at hrel
    unfold blkLE at hrel
    omega

/-- Witness for `ordering_correctness`: in `sortBlocks [blkA0, blkR]` the
lower-`y0` block `blkR` sits at position 0 and `blkA0` at position 1. -/
theorem ordering_correctness_witness : blkR.y0 < blkA0.y0 ∧ 0 < 1 :=
  ⟨by decide,
    ordering_correctness [blkA0, blkR] blkR blkA0 (by decide) 0 1
      (by decide) (by decide) (by decide) (by decide)⟩

/-- C5: tie stability — two blocks with equal `y0` and equal `x0` keep
their relative input order in the Sequencer's output (the sort is stable
on tied keys). -/
theorem tie_stability (l : List TextBlock) (A B : TextBlock)
    (h1 : A.y0 = B.y0) (h2 : A.x0 = B.x0) (hsub : List.Sublist [A, B] l) :
    List.Sublist [A, B] (sortBlocks l) :=
  List.pair_sublist_insertionSort (Or.inr ⟨h1, le_of_eq h2⟩) hsub

def blkT1 : TextBlock := ⟨0, 10, 100, 15, "tie one", 8⟩
def blkT2 : TextBlock := ⟨0, 10, 100, 15, "tie two", 9⟩

/-- Witness for `tie_stability` on two blocks sharing their sort key. -/
theorem tie_stability_witness :
    (blkT1.y0 = blkT2.y0 ∧ blkT1.x0 = blkT2.x0 ∧
      List.Sublist [blkT1, blkT2] [blkR, blkT1, blkT2]) ∧
    List.Sublist [blkT1, blkT2] (sortBlocks [blkR, blkT1, blkT2]) :=
  ⟨⟨by decide, by decide, by decide⟩,
    tie_stability [blkR, blkT1, blkT2] blkT1 blkT2 (by decide) (by decide)
      (by decide)⟩

/-- C1: the spec's seven-fragment scenario, given in any initial order,
passed through the Sequencer and then the Segmenter, yields exactly
Marker = ["RESTRICTED"],
Section-A = ["Programme/Project Status Report", "line A"],
Section-B = ["Description", "line B"],
Section-C = ["Report Parameters", "line C"],
in that group order and with that within-group order. -/
theorem scenario_grouping (l : List TextBlock) (h : l.Perm scenarioInput) :
    group_blocks (sortBlocks l) = scenarioExpected := by
  have hperm : (sortBlocks l).Perm scenarioInput :=
    (List.perm_insertionSort blkLE l).trans h
  have hsorted : (sortBlocks l).Pairwise blkLE :=
    List.sorted_insertionSort blkLE l
  have hne : (sortBlocks l).Pairwise (fun a b : TextBlock => a.y0 ≠ b.y0) := by
    have h7 : scenarioInput.Pairwise (fun a b : TextBlock => a.y0 ≠ b.y0) := by
      decide
    exact (hperm.pairwise_iff (fun hxy => Ne.symm hxy)).mpr h7
  have hstrict : (sortBlocks l).Pairwise
      (fun a b : TextBlock => a.y0 < b.y0) :=
    List.Pairwise.imp₂ (fun a b hle hne' => by
      rcases hle with hlt | ⟨heq, _⟩
      · exact hlt
      · exact absurd heq hne') hsorted hne
  have hscen : scenarioInput.Pairwise
      (fun a b : TextBlock => a.y0 < b.y0) := by decide
  haveI : IsAntisymm TextBlock (fun a b : TextBlock => a.y0 < b.y0) :=
    ⟨fun a b hab hba => absurd (hab.trans hba) (lt_irrefl _)⟩
  have heq : sortBlocks l = scenarioInput :=
    List.eq_of_perm_of_sorted hperm hstrict hscen
  rw [heq]
  decide

/-- The scenario's seven blocks in a shuffled initial order. -/
def scenarioShuffled : List TextBlock :=
  [blkC1, blkR, blkB1, blkA0, blkC0, blkA1, blkB0]

/-- Witness for `scenario_grouping` on a shuffled input order. -/
theorem scenario_grouping_witness :
    scenarioShuffled.Perm scenarioInput ∧
    group_blocks (sortBlocks scenarioShuffled) = scenarioExpected :=
  ⟨by decide, scenario_grouping scenarioShuffled (by decide)⟩

/-! ### The fragment supplier -/

/-- Modelled from the spec: a raw block tuple
`(x0, y0, x1, y1, text, block_no)` as returned by the external extractor's
`page.get_text("blocks")` (PyMuPDF, outside this repository). -/
structure RawBlock where
  x0 : Int
  y0 : Int
  x1 : Int
  y1 : Int
  text : String
  block_no : Nat

/-- Modelled from the spec: a document handle as opened by `fitz.open`; it
holds one list of raw blocks per page, and `len(doc)` is the page count. -/
structure Document where
  pages : List (List RawBlock)

/-- `extract_text_blocks(pdf_path, page_index)`: raise (here: return an
error) exactly on the source's `page_index >= len(doc)` check; otherwise
convert the page's raw blocks to `TextBlock`s and sort them with the
Sequencer. -/
def extract_text_blocks (doc : Document) (page_index : Nat) :
    Except String (List TextBlock) :=
  if h : doc.pages.length ≤ page_index then
    Except.error "PDF has too few pages, cannot load the requested page"
  else
    let raw_blocks := doc.pages.get ⟨page_index, by omega⟩
    let blocks := raw_blocks.map
      (fun b => TextBlock.mk b.x0 b.y0 b.x1 b.y1 b.text b.block_no)
    Except.ok (sortBlocks blocks)

/-- C9: the fragment supplier fails exactly when the requested 0-based page
index is outside the document's page range (`page_index ≥ page count`, the
source's `page_index >= len(doc)` test), and otherwise returns a (possibly
empty) list of blocks without error. -/
theorem extract_page_range (doc : Document) (page_index : Nat) :
    ((∃ e, extract_text_blocks doc page_index = Except.error e) ↔
      doc.pages.length ≤ page_index) ∧
    ((∃ bs, extract_text_blocks doc page_index = Except.ok bs) ↔
      page_index < doc.pages.length) := by
  by_cases h : doc.pages.length ≤ page_index
  · simp only [extract_text_blocks, dif_pos h]
    constructor
    · exact ⟨fun _ => h, fun _ => ⟨_, rfl⟩⟩
    · constructor
      · rintro ⟨bs, hbs⟩
        exact absurd hbs (by simp)
      · intro hlt
        omega
  · simp only [extract_text_blocks, dif_neg h]
    constructor
    · constructor
      · rintro ⟨e, he⟩
        exact absurd he (by simp)
      · intro hle
        exact absurd hle h
    · exact ⟨fun _ => by omega, fun _ => ⟨_, rfl⟩⟩
